import Mathlib

/-!
Verification of the TKN preload-artifact builder.

The development shallowly embeds the Python sources
`src/packages/server/src/baseline/build_bpe_baseline.py` and
`src/corpora/bpe.py`.  Python strings are modelled as `List Char`
(sequences of Unicode code points), bytes as `Nat` values below 256, and
the 32-bit wraparound arithmetic of the hash as `Nat` arithmetic with
explicit masking by `&&& 0xFFFFFFFF`, exactly as the source writes it.
-/

namespace Tkn

/-! ### The cyrb53 fingerprint, embedded from `build_bpe_baseline.py` -/

/-- One byte of the final hash buffer: `result[i] = (h2 >> (i*8)) & 0xFF`
for `i < 4`, else `(h1 >> ((i-4)*8)) & 0xFF`, as in the fill loop of
`cyrb53`. -/
def cyrb53_byte (h1 h2 : Nat) (i : Nat) : Nat :=
  if i < 4 then (h2 >>> (i * 8)) &&& 0xFF
  else (h1 >>> ((i - 4) * 8)) &&& 0xFF

/-- The two 32-bit accumulators of `cyrb53` after the per-character loop
and the final avalanche mixing, embedded line by line from the source:
each multiplication is truncated with `& 0xFFFFFFFF`. -/
def cyrb53_mix (data : List Char) (seed : Nat) : Nat × Nat :=
  let h1 := 0xdeadbeef ^^^ seed
  let h2 := 0x41c6ce57 ^^^ seed
  let p := data.foldl
    (fun p c =>
      (((p.1 ^^^ c.toNat) * 2654435761) &&& 0xFFFFFFFF,
       ((p.2 ^^^ c.toNat) * 1597334677) &&& 0xFFFFFFFF))
    (h1, h2)
  let h1 := ((p.1 ^^^ (p.1 >>> 16)) * 2246822507) &&& 0xFFFFFFFF
  let h1 := h1 ^^^ (((p.2 ^^^ (p.2 >>> 13)) * 3266489909) &&& 0xFFFFFFFF)
  let h2 := ((p.2 ^^^ (p.2 >>> 16)) * 2246822507) &&& 0xFFFFFFFF
  let h2 := h2 ^^^ (((h1 ^^^ (h1 >>> 13)) * 3266489909) &&& 0xFFFFFFFF)
  (h1, h2)

/-- `cyrb53(data, seed, hash_size)` from `build_bpe_baseline.py`: mix the
accumulators, allocate a zero `bytearray(hash_size)`, and fill its first
`min(8, hash_size)` entries in a loop. -/
def cyrb53 (data : List Char) (seed : Nat) (hash_size : Nat) : List Nat :=
  let h := cyrb53_mix data seed
  (List.range (min 8 hash_size)).foldl
    (fun buf i => buf.set i (cyrb53_byte h.1 h.2 i))
    (List.replicate hash_size 0)

/-! ### The reference algorithm of spec section 4.1

These definitions follow the spec's words, to be compared with the
embedding of the source above: accumulators mod 2^32, and an output
buffer described positionally (byte `i` is meaningful iff
`i < min 8 length`, all other bytes zero). -/

/-- Accumulator pair of spec section 4.1: per code point
`h1 = ((h1 XOR c) * 2654435761) mod 2^32`,
`h2 = ((h2 XOR c) * 1597334677) mod 2^32`, then the four avalanche lines
evaluated sequentially, each multiplication mod 2^32. -/
def fingerprintSpecMix (data : List Char) (seed : Nat) : Nat × Nat :=
  let h1 := 0xdeadbeef ^^^ seed
  let h2 := 0x41c6ce57 ^^^ seed
  let p := data.foldl
    (fun p c =>
      (((p.1 ^^^ c.toNat) * 2654435761) % 2 ^ 32,
       ((p.2 ^^^ c.toNat) * 1597334677) % 2 ^ 32))
    (h1, h2)
  let h1 := ((p.1 ^^^ (p.1 >>> 16)) * 2246822507) % 2 ^ 32
  let h1 := h1 ^^^ (((p.2 ^^^ (p.2 >>> 13)) * 3266489909) % 2 ^ 32)
  let h2 := ((p.2 ^^^ (p.2 >>> 16)) * 2246822507) % 2 ^ 32
  let h2 := h2 ^^^ (((h1 ^^^ (h1 >>> 13)) * 3266489909) % 2 ^ 32)
  (h1, h2)

/-- Output buffer of spec section 4.1: length `len`, zero-initialized,
whose first `min 8 len` bytes are taken little-endian from `h2`
(bytes 0..3) and `h1` (bytes 4..7). -/
def fingerprintSpec (data : List Char) (seed : Nat) (len : Nat) : List Nat :=
  let h := fingerprintSpecMix data seed
  (List.range len).map (fun i =>
    if i < min 8 len then
      if i < 4 then (h.2 >>> (i * 8)) % 256
      else (h.1 >>> ((i - 4) * 8)) % 256
    else 0)

/-! ### Token cleaning, embedded from `clean_bpe_token` -/

/-- The BPE end-of-word marker `"</w>"`. -/
def eow : List Char := "</w>".data

/-- The placeholder tokens skipped by `clean_bpe_token`. -/
def specialTokens : List (List Char) :=
  ["<unk>".data, "<pad>".data, "<s>".data, "</s>".data]

/-- `clean_bpe_token` from `build_bpe_baseline.py`: strip a trailing
`"</w>"` (Python `token[:-4]`), else drop the token if it is one of the
placeholder tokens, else pass it through. -/
def clean_bpe_token (token : List Char) : Option (List Char) :=
  if eow <:+ token then some (token.take (token.length - 4))
  else if token ∈ specialTokens then none
  else some token

/-! ### Base64 and storage keys

`create_storage_key` in the source calls Python's `base64.b64encode`,
the standard (RFC 4648) encoding; it is embedded here directly. -/

/-- The standard base64 alphabet. -/
def b64Alphabet : List Char :=
  "ABCDEFGHIJKLMNOPQRSTUVWXYZabcdefghijklmnopqrstuvwxyz0123456789+/".data

/-- Character of the standard base64 alphabet at a 6-bit index. -/
def b64Char (n : Nat) : Char := b64Alphabet.getD n 'A'

/-- Standard base64 encoding of a byte sequence, with `'='` padding, as
computed by Python's `base64.b64encode`. -/
def b64Encode : List Nat → List Char
  | [] => []
  | [b1] =>
      [b64Char (b1 >>> 2), b64Char ((b1 &&& 3) <<< 4), '=', '=']
  | [b1, b2] =>
      [b64Char (b1 >>> 2), b64Char (((b1 &&& 3) <<< 4) ||| (b2 >>> 4)),
       b64Char ((b2 &&& 15) <<< 2), '=']
  | b1 :: b2 :: b3 :: rest =>
      b64Char (b1 >>> 2) ::
      b64Char (((b1 &&& 3) <<< 4) ||| (b2 >>> 4)) ::
      b64Char (((b2 &&& 15) <<< 2) ||| (b3 >>> 6)) ::
      b64Char (b3 &&& 63) ::
      b64Encode rest

/-- `create_storage_key` from `build_bpe_baseline.py`: base64-encode the
hash bytes. -/
def create_storage_key (hash_bytes : List Nat) : List Char :=
  b64Encode hash_bytes

/-! ### The preload-artifact builder, embedded from `build_bpe_tokenizer`
in `build_bpe_baseline.py` (the per-token processing loop). -/

/-- One value of the `preload_data` mapping. -/
structure PreloadRecord where
  data : List Char
  frequency : Nat
  token_id : Nat
  original_bpe : List Char
deriving DecidableEq

/-- `preload_data[storage_key] = record`: Python dict assignment on a
mapping modelled as an association list — overwrite in place when the
key is present, append otherwise. -/
def insertRecord (m : List (List Char × PreloadRecord)) (k : List Char)
    (v : PreloadRecord) : List (List Char × PreloadRecord) :=
  if (m.map Prod.fst).contains k then
    m.map (fun p => if p.1 = k then (k, v) else p)
  else m ++ [(k, v)]

/-- One iteration of the artifact-construction loop of
`build_bpe_tokenizer`: clean the token (skipping filtered ones), hash
the cleaned text with `cyrb53` (seed 0, 64 bytes), derive the storage
key, and insert the record. -/
def buildStep (acc : List (List Char × PreloadRecord))
    (tv : List Char × Nat) : List (List Char × PreloadRecord) :=
  match clean_bpe_token tv.1 with
  | none => acc
  | some ct =>
      insertRecord acc (create_storage_key (cyrb53 ct 0 64))
        ⟨ct, 1, tv.2, tv.1⟩

/-- The artifact-construction loop of `build_bpe_tokenizer` in
`build_bpe_baseline.py`: fold `buildStep` over the vocabulary pairs,
starting from the empty `preload_data` mapping. -/
def build_bpe_tokenizer (vocab : List (List Char × Nat)) :
    List (List Char × PreloadRecord) :=
  vocab.foldl buildStep []

/-! ### Publication traces

The two builders persist the artifact differently; the file operations
they perform on the preload output path are recorded here as abstract
traces.  `build_bpe_baseline.py` opens the final preload path and
streams `json.dump` into it directly; `corpora/bpe.py` first streams
`json.dump` into a file under `/tmp` and then `shutil.copy2`s it onto
the final path (a byte copy that writes the destination incrementally,
not a rename). -/

/-- The two locations involved in publishing the artifact. -/
inductive PubPath where
  | tempStorage
  | finalOutput
deriving DecidableEq

/-- Abstract file operations used while publishing the artifact. -/
inductive PubOp where
  /-- Open `dst` for writing and stream the serialized mapping into it
  (`open(..., "w")` followed by `json.dump`). -/
  | streamWrite (dst : PubPath)
  /-- Copy the bytes of `src` into `dst`, writing `dst` incrementally
  (`shutil.copy2`). -/
  | copyTo (src dst : PubPath)
  /-- Atomically relocate `src` onto `dst` (`os.rename`/`os.replace`);
  neither builder performs this operation. -/
  | renameTo (src dst : PubPath)
deriving DecidableEq

/-- Whether an operation writes the final output path incrementally, so
that a concurrent reader of that path could observe a partial file. -/
def writesFinalIncrementally : PubOp → Bool
  | .streamWrite .finalOutput => true
  | .copyTo _ .finalOutput => true
  | _ => false

/-- Publication trace of `build_bpe_tokenizer` in
`build_bpe_baseline.py`: `json.dump` directly into the final preload
path. -/
def baselinePublish : List PubOp := [.streamWrite .finalOutput]

/-- Publication trace of `build_bpe_tokenizer` in `corpora/bpe.py`:
`json.dump` into `/tmp`, then `shutil.copy2` onto the final path. -/
def corporaPublish : List PubOp :=
  [.streamWrite .tempStorage, .copyTo .tempStorage .finalOutput]

/-- Whether an operation is an atomic relocation. -/
def isRenameOp : PubOp → Bool
  | .renameTo _ _ => true
  | _ => false

/-- Atomic publication in the sense of the spec: the final output path
is never written incrementally, and the artifact arrives there through
an atomic relocation of the completed temporary file. -/
def atomicPublication (ops : List PubOp) : Prop :=
  (∀ op ∈ ops, writesFinalIncrementally op = false) ∧
  PubOp.renameTo PubPath.tempStorage PubPath.finalOutput ∈ ops

/-! ### Basic lemmas about the hash embedding -/

/-- Masking with `0xFFFFFFFF` is reduction mod `2^32`. -/
theorem and_mask32 (x : Nat) : x &&& 0xFFFFFFFF = x % 2 ^ 32 := by
  have h : (0xFFFFFFFF : Nat) = 2 ^ 32 - 1 := by norm_num
  rw [h, Nat.and_pow_two_sub_one_eq_mod]

/-- Masking with `0xFF` is reduction mod `256`. -/
theorem and_mask8 (x : Nat) : x &&& 0xFF = x % 256 := by
  have h : (0xFF : Nat) = 2 ^ 8 - 1 := by norm_num
  rw [h, Nat.and_pow_two_sub_one_eq_mod]

/-- Filling the first `m` cells of a zeroed buffer of length `L` in a
loop produces the positionally described buffer. -/
theorem foldl_set_replicate (f : Nat → Nat) (L m : Nat) :
    (List.range m).foldl (fun buf i => buf.set i (f i))
        (List.replicate L 0)
      = (List.range L).map (fun j => if j < m then f j else 0) := by
  induction m with
  | zero => simp
  | succ m ih =>
      rw [List.range_succ, List.foldl_append, ih]
      simp only [List.foldl_cons, List.foldl_nil]
      apply List.ext_getElem
      · simp
      · intro i h1 h2
        rw [List.getElem_set]
        simp only [List.getElem_map, List.getElem_range]
        by_cases him : m = i
        · subst him
          simp
        · rw [if_neg him]
          by_cases hlt : i < m
          · rw [if_pos hlt, if_pos (by omega)]
          · rw [if_neg hlt, if_neg (by omega)]

/-- `cyrb53` in positional form: byte `i` of the output is the hash
byte when `i < min 8 L` and zero otherwise. -/
theorem cyrb53_eq_map (data : List Char) (seed L : Nat) :
    cyrb53 data seed L
      = (List.range L).map (fun i =>
          if i < min 8 L then
            cyrb53_byte (cyrb53_mix data seed).1 (cyrb53_mix data seed).2 i
          else 0) := by
  show (List.range (min 8 L)).foldl
      (fun buf i => buf.set i
        (cyrb53_byte (cyrb53_mix data seed).1 (cyrb53_mix data seed).2 i))
      (List.replicate L 0) = _
  exact foldl_set_replicate _ L (min 8 L)

/-- The output buffer always has exactly the requested length. -/
theorem cyrb53_length (data : List Char) (seed L : Nat) :
    (cyrb53 data seed L).length = L := by
  rw [cyrb53_eq_map]
  simp

/-- The hash output of length `L2 ≥ L1 ≥ 8` is the length-`L1` output
followed by zeros. -/
theorem cyrb53_append_zeros (s : List Char) (k L1 L2 : Nat)
    (h8 : 8 ≤ L1) (h12 : L1 ≤ L2) :
    cyrb53 s k L2 = cyrb53 s k L1 ++ List.replicate (L2 - L1) 0 := by
  rw [cyrb53_eq_map, cyrb53_eq_map]
  have hL2 : L2 = L1 + (L2 - L1) := by omega
  rw [hL2, List.range_add, List.map_append]
  congr 1
  · apply List.map_congr_left
    intro i hi
    simp only [List.mem_range] at hi
    by_cases h8i : i < 8
    · rw [if_pos (by omega), if_pos (by omega)]
    · rw [if_neg (by omega), if_neg (by omega)]
  · apply List.ext_getElem
    · simp
    · intro i hi1 hi2
      simp only [List.getElem_map, List.getElem_range,
        List.getElem_replicate]
      rw [if_neg (by omega)]

/-- The first 8 bytes of the hash buffer do not depend on the requested
length, once the length is at least 8. -/
theorem cyrb53_take_eight (s : List Char) (k L : Nat) (h8 : 8 ≤ L) :
    (cyrb53 s k L).take 8 = cyrb53 s k 8 := by
  rw [cyrb53_append_zeros s k 8 L (by omega) h8]
  exact List.take_left' (cyrb53_length s k 8)

/-- Every byte of the hash buffer at an index at or past
`min 8 L` is zero. -/
theorem cyrb53_getD_eq_zero (s : List Char) (k L i : Nat)
    (h : min 8 L ≤ i) : (cyrb53 s k L).getD i 0 = 0 := by
  rw [cyrb53_eq_map]
  by_cases hi : i < L
  · rw [List.getD_eq_getElem?_getD, List.getElem?_map,
      List.getElem?_range hi]
    simp only [Option.map_some', Option.getD_some]
    rw [if_neg (by omega)]
  · rw [List.getD_eq_getElem?_getD, List.getElem?_eq_none (by simp; omega)]
    rfl

/-- Length of a base64 encoding: four output characters per started
group of three input bytes. -/
theorem b64Encode_length :
    ∀ bs : List Nat, (b64Encode bs).length = 4 * ((bs.length + 2) / 3)
  | [] => by simp [b64Encode]
  | [b1] => by simp [b64Encode]
  | [b1, b2] => by simp [b64Encode]
  | b1 :: b2 :: b3 :: rest => by
      have ih := b64Encode_length rest
      simp only [b64Encode, List.length_cons, ih]
      omega

/-! ### Lemmas about the builder's mapping -/

/-- Any property that holds of every freshly built record pair, and of
every pair already in the mapping, holds of every pair after a dict
assignment. -/
theorem insertRecord_mem (Q : List Char × PreloadRecord → Prop)
    (m : List (List Char × PreloadRecord)) (k : List Char)
    (v : PreloadRecord) (hm : ∀ p ∈ m, Q p) (hv : Q (k, v)) :
    ∀ p ∈ insertRecord m k v, Q p := by
  intro p hp
  unfold insertRecord at hp
  split at hp
  · rw [List.mem_map] at hp
    obtain ⟨q, hq, rfl⟩ := hp
    by_cases hqk : q.1 = k
    · rw [if_pos hqk]
      exact hv
    · rw [if_neg hqk]
      exact hm q hq
  · rw [List.mem_append, List.mem_singleton] at hp
    rcases hp with h | h
    · exact hm p h
    · subst h
      exact hv

/-- Every pair of a built artifact is a storage key derived from the
cleaned token together with its record. -/
theorem build_mem_prop (Q : List Char × PreloadRecord → Prop)
    (hQ : ∀ ct tid tok,
      Q (create_storage_key (cyrb53 ct 0 64), ⟨ct, 1, tid, tok⟩)) :
    ∀ (vocab : List (List Char × Nat))
      (acc : List (List Char × PreloadRecord)),
      (∀ p ∈ acc, Q p) → ∀ p ∈ vocab.foldl buildStep acc, Q p := by
  intro vocab
  induction vocab with
  | nil =>
      intro acc hacc
      rw [List.foldl_nil]
      exact hacc
  | cons tv rest ih =>
      intro acc hacc
      rw [List.foldl_cons]
      apply ih
      unfold buildStep
      split
      · exact hacc
      · exact insertRecord_mem Q acc _ _ hacc (hQ _ tv.2 tv.1)

/-! ### Claims -/

/-- C1: for every Unicode string, every seed and every requested length,
the source's `cyrb53` returns exactly the bytes of the reference
algorithm of spec section 4.1: accumulators seeded from `0xdeadbeef` and
`0x41c6ce57`, per-code-point multiplicative mixing mod `2^32`, the four
sequential avalanche lines, and a zero-initialized buffer whose first
`min 8 L` bytes come little-endian from `h2` then `h1`. -/
theorem cyrb53_eq_fingerprintSpec (data : List Char) (seed len : Nat) :
    cyrb53 data seed len = fingerprintSpec data seed len := by
  have hmix : cyrb53_mix data seed = fingerprintSpecMix data seed := by
    unfold cyrb53_mix fingerprintSpecMix
    simp only [and_mask32]
  rw [cyrb53_eq_map, hmix]
  simp only [fingerprintSpec]
  apply List.map_congr_left
  intro i hi
  by_cases h8 : i < min 8 len
  · rw [if_pos h8, if_pos h8]
    unfold cyrb53_byte
    by_cases h4 : i < 4
    · rw [if_pos h4, if_pos h4, and_mask8]
    · rw [if_neg h4, if_neg h4, and_mask8]
  · rw [if_neg h8, if_neg h8]

/-- C8: the fingerprint function is total: for every Unicode string
(including the empty string), every seed, and every requested length
(including 0 and lengths below 8), it returns a byte sequence of exactly
the requested length. -/
theorem cyrb53_total_length (data : List Char) (seed L : Nat) :
    (cyrb53 data seed L).length = L :=
  cyrb53_length data seed L

/-- C5 counterexample: with the empty string and seed 0, the length-8
output is not the length-4 output extended by zero bytes — bytes 4..7
carry the `h1` accumulator and are nonzero here, so extension-by-zeros
fails for lengths below 8. -/
theorem cyrb53_extension_counterexample :
    ¬ cyrb53 [] 0 8 = cyrb53 [] 0 4 ++ List.replicate 4 0 := by
  decide

/-- C5 amended: the length-64 and length-8 fingerprints agree on their
first 8 bytes; for lengths `8 ≤ L1 ≤ L2` the longer output is the
shorter output extended only by zero bytes; and every byte at an index
at or past `min 8 L2` is zero. -/
theorem cyrb53_cross_length (s : List Char) (k L1 L2 : Nat)
    (h8 : 8 ≤ L1) (h12 : L1 ≤ L2) :
    (cyrb53 s k 64).take 8 = cyrb53 s k 8 ∧
    cyrb53 s k L2 = cyrb53 s k L1 ++ List.replicate (L2 - L1) 0 ∧
    (∀ i, min 8 L2 ≤ i → (cyrb53 s k L2).getD i 0 = 0) :=
  ⟨cyrb53_take_eight s k 64 (by omega),
   cyrb53_append_zeros s k L1 L2 h8 h12,
   fun i hi => cyrb53_getD_eq_zero s k L2 i hi⟩

/-- Concrete instance of `cyrb53_cross_length` at the string "a",
lengths 8 and 12. -/
theorem cyrb53_cross_length_witness :
    ((8 : Nat) ≤ 8 ∧ (8 : Nat) ≤ 12) ∧
    (cyrb53 ['a'] 0 64).take 8 = cyrb53 ['a'] 0 8 ∧
    cyrb53 ['a'] 0 12 = cyrb53 ['a'] 0 8 ++ List.replicate 4 0 ∧
    (cyrb53 ['a'] 0 12).getD 9 0 = 0 :=
  ⟨⟨by decide, by decide⟩,
   (cyrb53_cross_length ['a'] 0 8 12 (by decide) (by decide)).1,
   (cyrb53_cross_length ['a'] 0 8 12 (by decide) (by decide)).2.1,
   (cyrb53_cross_length ['a'] 0 8 12 (by decide) (by decide)).2.2 9
     (by decide)⟩

/-- C4: cleaning strips a trailing end-of-word suffix (kept even when
the remainder is empty), filters exactly the four placeholder tokens
among suffix-free tokens, passes every other token through unchanged,
and never filters a token outside the placeholder set. -/
theorem clean_bpe_token_cases (t : List Char) :
    (∀ s, t = s ++ eow → clean_bpe_token t = some s) ∧
    (¬ eow <:+ t → t ∈ specialTokens → clean_bpe_token t = none) ∧
    (¬ eow <:+ t → t ∉ specialTokens → clean_bpe_token t = some t) ∧
    (clean_bpe_token t = none → t ∈ specialTokens) := by
  refine ⟨?_, ?_, ?_, ?_⟩
  · rintro s rfl
    have he : eow.length = 4 := rfl
    have hlen : (s ++ eow).length - 4 = s.length := by
      rw [List.length_append, he]
      omega
    unfold clean_bpe_token
    rw [if_pos (List.suffix_append s eow), hlen, List.take_left]
  · intro h1 h2
    unfold clean_bpe_token
    rw [if_neg h1, if_pos h2]
  · intro h1 h2
    unfold clean_bpe_token
    rw [if_neg h1, if_neg h2]
  · intro h
    unfold clean_bpe_token at h
    split at h
    · simp at h
    · split at h
      · assumption
      · simp at h

/-- Concrete instance of `clean_bpe_token_cases`: "x</w>" decomposes as
"x" followed by the suffix and cleans to "x". -/
theorem clean_bpe_token_cases_witness :
    "x</w>".data = "x".data ++ eow ∧
    clean_bpe_token "x</w>".data = some "x".data :=
  ⟨by decide, (clean_bpe_token_cases "x</w>".data).1 "x".data (by decide)⟩

/-- C6 counterexample: "<unk></w>" is not filtered (it cleans to
"<unk>"), yet cleaning its cleaned result filters it, so cleaning is not
idempotent on the non-filtered tokens. -/
theorem clean_not_idempotent :
    clean_bpe_token "<unk></w>".data = some "<unk>".data ∧
    clean_bpe_token "<unk>".data = none ∧
    ¬ (clean_bpe_token "<unk></w>".data).bind clean_bpe_token
        = clean_bpe_token "<unk></w>".data := by
  refine ⟨by decide, by decide, by decide⟩

/-- C6 amended: cleaning is idempotent on every non-filtered token whose
cleaned result neither ends in the end-of-word suffix nor lies in the
placeholder set; in general a second pass can strip a further suffix or
filter the result. -/
theorem clean_idempotent_amended (t ct : List Char)
    (h : clean_bpe_token t = some ct) (h1 : ¬ eow <:+ ct)
    (h2 : ct ∉ specialTokens) :
    (clean_bpe_token t).bind clean_bpe_token = clean_bpe_token t ∧
    clean_bpe_token ct = some ct := by
  have hc : clean_bpe_token ct = some ct := by
    unfold clean_bpe_token
    rw [if_neg h1, if_neg h2]
  rw [h]
  exact ⟨by simpa using hc, hc⟩

/-- Concrete instance of `clean_idempotent_amended` at "dog". -/
theorem clean_idempotent_amended_witness :
    clean_bpe_token "dog".data = some "dog".data ∧
    ¬ eow <:+ "dog".data ∧
    "dog".data ∉ specialTokens ∧
    ((clean_bpe_token "dog".data).bind clean_bpe_token
        = clean_bpe_token "dog".data ∧
     clean_bpe_token "dog".data = some "dog".data) :=
  ⟨by decide, by decide, by decide,
   clean_idempotent_amended "dog".data "dog".data (by decide) (by decide)
     (by decide)⟩

/-- C10: suffix stripping takes priority over placeholder filtering:
every token ending in "</w>" is stripped, never filtered — in
particular "<unk></w>" cleans to "<unk>", and building from a
vocabulary containing "<unk></w>" inserts a record whose data field is
the placeholder text "<unk>". -/
theorem clean_suffix_priority (t : List Char) (h : eow <:+ t) :
    clean_bpe_token t = some (t.take (t.length - 4)) ∧
    clean_bpe_token "<unk></w>".data = some "<unk>".data ∧
    (build_bpe_tokenizer [("<unk></w>".data, 2)]).map (fun p => p.2.data)
      = ["<unk>".data] := by
  refine ⟨?_, by decide, by decide⟩
  unfold clean_bpe_token
  rw [if_pos h]

/-- Concrete instance of `clean_suffix_priority` at "<unk></w>". -/
theorem clean_suffix_priority_witness :
    eow <:+ "<unk></w>".data ∧
    clean_bpe_token "<unk></w>".data
      = some ("<unk></w>".data.take ("<unk></w>".data.length - 4)) :=
  ⟨by decide, (clean_suffix_priority "<unk></w>".data (by decide)).1⟩

/-- C2: every record stored in a built artifact has a storage key equal
to the base64 encoding of the seed-0, 64-byte fingerprint of its data
field. -/
theorem build_storage_key_roundtrip (vocab : List (List Char × Nat))
    (p : List Char × PreloadRecord)
    (hp : p ∈ build_bpe_tokenizer vocab) :
    p.1 = create_storage_key (cyrb53 p.2.data 0 64) :=
  build_mem_prop
    (fun q => q.1 = create_storage_key (cyrb53 q.2.data 0 64))
    (fun ct tid tok => rfl) vocab [] (by simp) p hp

/-- Concrete instance of `build_storage_key_roundtrip` on the
single-token vocabulary with "run". -/
theorem build_storage_key_roundtrip_witness :
    (build_bpe_tokenizer [("run".data, 0)]).getD 0
        (([] : List Char), ⟨[], 0, 0, []⟩)
      ∈ build_bpe_tokenizer [("run".data, 0)] ∧
    ((build_bpe_tokenizer [("run".data, 0)]).getD 0
        (([] : List Char), ⟨[], 0, 0, []⟩)).1
      = create_storage_key
          (cyrb53 ((build_bpe_tokenizer [("run".data, 0)]).getD 0
            (([] : List Char), ⟨[], 0, 0, []⟩)).2.data 0 64) :=
  ⟨by decide, build_storage_key_roundtrip [("run".data, 0)] _ (by decide)⟩

/-- C9: every key of a built artifact is the base64 encoding of a
64-byte fingerprint computed with seed 0, so all keys have the fixed
encoded length 88; the statement holds for every vocabulary list, hence
after every insertion prefix the builder performs. -/
theorem build_key_length_invariant (vocab : List (List Char × Nat))
    (p : List Char × PreloadRecord)
    (hp : p ∈ build_bpe_tokenizer vocab) :
    p.1 = create_storage_key (cyrb53 p.2.data 0 64) ∧
    (cyrb53 p.2.data 0 64).length = 64 ∧ p.1.length = 88 :=
  build_mem_prop
    (fun q => q.1 = create_storage_key (cyrb53 q.2.data 0 64) ∧
      (cyrb53 q.2.data 0 64).length = 64 ∧ q.1.length = 88)
    (fun ct tid tok =>
      ⟨rfl, cyrb53_length ct 0 64, by
        show (b64Encode (cyrb53 ct 0 64)).length = 88
        rw [b64Encode_length, cyrb53_length]⟩)
    vocab [] (by simp) p hp

/-- Concrete instance of `build_key_length_invariant` on the
single-token vocabulary with "dog". -/
theorem build_key_length_invariant_witness :
    (build_bpe_tokenizer [("dog".data, 7)]).getD 0
        (([] : List Char), ⟨[], 0, 0, []⟩)
      ∈ build_bpe_tokenizer [("dog".data, 7)] ∧
    (((build_bpe_tokenizer [("dog".data, 7)]).getD 0
        (([] : List Char), ⟨[], 0, 0, []⟩)).1
      = create_storage_key
          (cyrb53 ((build_bpe_tokenizer [("dog".data, 7)]).getD 0
            (([] : List Char), ⟨[], 0, 0, []⟩)).2.data 0 64) ∧
     (cyrb53 ((build_bpe_tokenizer [("dog".data, 7)]).getD 0
        (([] : List Char), ⟨[], 0, 0, []⟩)).2.data 0 64).length = 64 ∧
     ((build_bpe_tokenizer [("dog".data, 7)]).getD 0
        (([] : List Char), ⟨[], 0, 0, []⟩)).1.length = 88) :=
  ⟨by decide, build_key_length_invariant [("dog".data, 7)] _ (by decide)⟩

/-- C7: building from the exact 3-token vocabulary
`{"run": 0, "running</w>": 1, "<unk>": 2}` yields exactly two records,
with data fields "run" and "running", no record mentioning "<unk>" in
its data or original form, and every key round-tripping through the
fingerprint of its data. -/
theorem build_three_token_vocab :
    (build_bpe_tokenizer
        [("run".data, 0), ("running</w>".data, 1), ("<unk>".data, 2)]).length
      = 2 ∧
    (build_bpe_tokenizer
        [("run".data, 0), ("running</w>".data, 1), ("<unk>".data, 2)]).map
        (fun p => p.2.data)
      = ["run".data, "running".data] ∧
    (∀ p ∈ build_bpe_tokenizer
        [("run".data, 0), ("running</w>".data, 1), ("<unk>".data, 2)],
      p.2.data ≠ "<unk>".data ∧ p.2.original_bpe ≠ "<unk>".data ∧
      p.1 = create_storage_key (cyrb53 p.2.data 0 64)) := by
  decide

/-- C3 counterexample: neither builder's publication trace is an atomic
temp-write-then-relocate publication — the baseline builder never
touches temporary storage, and the corpora builder copies instead of
renaming. -/
theorem publish_not_atomic :
    ¬ atomicPublication baselinePublish ∧
    ¬ atomicPublication corporaPublish := by
  unfold atomicPublication
  decide

/-- C3 amended: the baseline builder streams the serialized mapping
directly into the final output path, and the corpora builder writes it
to temporary storage and then copies — not atomically renames — it onto
the final path; in both traces the final path is written incrementally
and no rename ever occurs, so a reader of the final path can observe a
partially written file. -/
theorem publish_actual_behavior :
    (∃ op ∈ baselinePublish, writesFinalIncrementally op = true) ∧
    (∃ op ∈ corporaPublish, writesFinalIncrementally op = true) ∧
    corporaPublish.head? = some (PubOp.streamWrite PubPath.tempStorage) ∧
    (∀ op ∈ baselinePublish ++ corporaPublish, isRenameOp op = false) := by
  decide

end Tkn
